import Mathlib

/-!
Verification of the mysql-user-migration repository.

This file shallowly embeds the two core classes of the repository —
`UserMigrator` (src/migrate.js) and `UserRemover` (src/unnamed/part_001,
the static-binding remover) — together with the environment-variable
parsing performed in their constructors, and proves or refutes the frozen
claims about them.

Modelling conventions:
* The durable database state is `Db`: the ids present in the `users` table
  (used by migrate.js) and the `user` table (used by the remover), plus the
  values of the user-id column of each data table.
* Every SQL statement in the source is issued through `this.pool.execute`.
  In mysql2 (the library behind `createPool` / `pool.execute` /
  `connection.beginTransaction`), `pool.execute` runs each statement on an
  autocommit connection taken from the pool, while the transaction begun on
  the separately acquired `connection` scopes only statements executed on
  that same connection.  Since the source never executes a statement on
  `connection`, every write is durable immediately and the
  begin/commit/rollback calls are recorded as events that do not alter the
  durable state.  (The pool construction itself lives in config/database.js,
  outside src/; its interface is the one the spec describes in sections 5
  and 6: acquire exclusive connection, begin/commit/rollback, execute.)
* Fallible statements: an `Oracle` (for the migrator) says which statements
  fail; the remover is embedded against an explicit response environment
  `RemEnv`, the most general backend, with `honestRemEnv` instantiating it
  from a `Db`.
* JS numbers that hold ids and counts are modelled as `Int` (the remover
  records `-1` for a failed count, so `Nat` would not be faithful).
-/

namespace UserMigration

/-- Ambient environment variables read by the constructors
(`process.env.SOURCE_USER_ID`, `process.env.TARGET_USER_ID`,
`process.env.DRY_RUN`); `none` models an unset variable. -/
structure Env where
  sourceUserIdVar : Option String
  targetUserIdVar : Option String
  dryRunVar : Option String
deriving Repr, DecidableEq

/-- Characters skipped by JS `parseInt` before parsing (ASCII whitespace and
line terminators; the unicode cases are irrelevant for this model). -/
def isJsSpace (c : Char) : Bool :=
  c = ' ' || c = '\t' || c = '\n' || c = '\r' || c = '\x0b' || c = '\x0c'

/-- Value of a hexadecimal digit, if the character is one. -/
def hexDigitVal (c : Char) : Option Nat :=
  if '0' ≤ c ∧ c ≤ '9' then some (c.toNat - '0'.toNat)
  else if 'a' ≤ c ∧ c ≤ 'f' then some (c.toNat - 'a'.toNat + 10)
  else if 'A' ≤ c ∧ c ≤ 'F' then some (c.toNat - 'A'.toNat + 10)
  else none

/-- Accumulate the value of a digit sequence in the given base. -/
def digitsVal (base : Nat) (digitVal : Char → Option Nat) : List Char → Nat → Nat
  | [], acc => acc
  | c :: cs, acc =>
    match digitVal c with
    | some v => digitsVal base digitVal cs (acc * base + v)
    | none => acc

/-- Decimal digit value, if the character is one. -/
def decDigitVal (c : Char) : Option Nat :=
  if '0' ≤ c ∧ c ≤ '9' then some (c.toNat - '0'.toNat) else none

/-- JS `parseInt(s)` with no radix argument: skip whitespace, optional sign,
then either a `0x`/`0X`-prefixed hexadecimal digit run or a decimal digit
run; `none` models the `NaN` result when no digit is found. -/
def jsParseInt (s : String) : Option Int :=
  let cs := s.data.dropWhile isJsSpace
  let signAndRest : Int × List Char :=
    match cs with
    | '-' :: rest => (-1, rest)
    | '+' :: rest => (1, rest)
    | _ => (1, cs)
  let sign := signAndRest.1
  let body := signAndRest.2
  match body with
  | '0' :: x :: rest =>
    if x = 'x' ∨ x = 'X' then
      let ds := rest.takeWhile (fun c => (hexDigitVal c).isSome)
      if ds.isEmpty then none
      else some (sign * (digitsVal 16 hexDigitVal ds 0 : Nat))
    else
      some (sign * (digitsVal 10 decDigitVal
        (body.takeWhile (fun c => (decDigitVal c).isSome)) 0 : Nat))
  | _ =>
    let ds := body.takeWhile (fun c => (decDigitVal c).isSome)
    if ds.isEmpty then none
    else some (sign * (digitsVal 10 decDigitVal ds 0 : Nat))

/-- Embeds `parseInt(envVar) || dflt`: an unset variable (`parseInt`
receives `undefined`), a `NaN` parse, or a parse to `0` (falsy) all yield
the default. -/
def parseEnvInt (s : Option String) (dflt : Int) : Int :=
  match s with
  | none => dflt
  | some str =>
    match jsParseInt str with
    | none => dflt
    | some n => if n = 0 then dflt else n

/-- Embeds `process.env.DRY_RUN === 'true'` (migrate.js line 15,
remover line 14): strict string equality with `'true'`. -/
def parseDryRun (s : Option String) : Bool :=
  s = some "true"

/-- Configuration of a `UserMigrator` run. -/
structure MigCfg where
  sourceUserId : Int
  targetUserId : Int
  dryRun : Bool
deriving Repr, DecidableEq

/-- Embeds the `UserMigrator` constructor (migrate.js lines 13-15). -/
def mkMigCfg (env : Env) : MigCfg where
  sourceUserId := parseEnvInt env.sourceUserIdVar 41
  targetUserId := parseEnvInt env.targetUserIdVar 358
  dryRun := parseDryRun env.dryRunVar

/-- Configuration of a `UserRemover` run. -/
structure RemCfg where
  sourceUserId : Int
  dryRun : Bool
deriving Repr, DecidableEq

/-- Embeds the `UserRemover` constructor (part_001 lines 13-14). -/
def mkRemCfg (env : Env) : RemCfg where
  sourceUserId := parseEnvInt env.sourceUserIdVar 41
  dryRun := parseDryRun env.dryRunVar

/-- Durable database state.  `usersTable` holds the ids of the rows of the
`users` table queried by migrate.js; `userTable` the ids of the rows of the
`user` table queried by the remover; `refs` maps each data table name to
the list of values of its user-id column (one entry per row). -/
structure Db where
  usersTable : List Int
  userTable : List Int
  refs : List (String × List Int)
deriving Repr, DecidableEq

/-- Values of the user-id column of table `t` (empty when absent). -/
def Db.colOf (db : Db) (t : String) : List Int :=
  match db.refs.lookup t with
  | some l => l
  | none => []

/-- Result of `SELECT COUNT(*) FROM t WHERE userIdColumn = uid`. -/
def countRefs (db : Db) (t : String) (uid : Int) : Nat :=
  (db.colOf t).count uid

/-- Rewrite the user-id column of table `t`:
`UPDATE t SET col = tgt WHERE col = src`. -/
def Db.updateRefs (db : Db) (t : String) (src tgt : Int) : Db :=
  { db with refs := db.refs.map (fun p =>
      if p.1 = t then (p.1, p.2.map (fun v => if v = src then tgt else v)) else p) }

/-- MySQL reports the number of CHANGED rows as `affectedRows` for an
UPDATE (the default protocol flag used by mysql2): when `src = tgt` no row
changes, otherwise every matched row does. -/
def updateAffected (db : Db) (t : String) (src tgt : Int) : Nat :=
  if src = tgt then 0 else countRefs db t src

/-- Effect of `DELETE FROM user WHERE id = uid`. -/
def Db.deleteUser (db : Db) (uid : Int) : Db :=
  { db with userTable := db.userTable.filter (fun v => ¬ v = uid) }

/-- Observable data-store and transaction events of a run, in order.
`beginTx`/`commitTx`/`rollbackTx` are the calls on the separately acquired
`connection`; `update`/`deleteUser` are the writes issued through
`pool.execute` (autocommitted, outside that transaction); `backupWrite` is
the durable write of the user-backup file for the fetched row id. -/
inductive Event where
  | beginTx
  | commitTx
  | rollbackTx
  | update (table : String) (src tgt : Int)
  | deleteUser (id : Int)
  | backupWrite (rowId : Int)
deriving Repr, DecidableEq

/-- Replay the durable effect of a list of events on a database: only the
autocommitted pool writes change the durable state; begin/commit/rollback
on the statement-free `connection` transaction do not. -/
def applyEvents (db : Db) : List Event → Db
  | [] => db
  | Event.update t src tgt :: rest => applyEvents (db.updateRefs t src tgt) rest
  | Event.deleteUser uid :: rest => applyEvents (db.deleteUser uid) rest
  | _ :: rest => applyEvents db rest

/-! ## UserMigrator (src/migrate.js) -/

/-- The statement inside `migrateTable` that a query failure is attributed
to: the source-id count (line 102), the conflict count for the target id
(line 122), or the UPDATE itself (line 133). -/
inductive StmtKind where
  | countSource
  | conflictCount
  | update
deriving Repr, DecidableEq

/-- Errors surfaced by the migrator: the two not-found throws of
`validatePrerequisites` (lines 73 and 83) and underlying statement
failures rethrown by `migrateTable` (line 148). -/
inductive MigErr where
  | sourceUserNotFound (id : Int)
  | targetUserNotFound (id : Int)
  | queryFailed (table : String) (stmt : StmtKind)
deriving Repr, DecidableEq

/-- Failure oracle: which statements of a run fail at the transport level.
`analyzerCountFails` covers the per-table counts of
`DatabaseAnalyzer.countRecordsByTable`, whose per-table catch records a
count of 0 on error. -/
structure Oracle where
  analyzerCountFails : String → Bool
  countSourceFails : String → Bool
  conflictCountFails : String → Bool
  updateFails : String → Bool

/-- The oracle of a run in which every statement succeeds. -/
def noFailOracle : Oracle :=
  { analyzerCountFails := fun _ => false
    countSourceFails := fun _ => false
    conflictCountFails := fun _ => false
    updateFails := fun _ => false }

/-- Per-table result returned by `migrateTable` (`{migrated, skipped}`,
plus `existingRecords` on the write path). -/
structure TableResult where
  migrated : Nat
  skipped : Nat
  existingRecords : Option Nat
deriving Repr, DecidableEq

/-- The value resolved by `executeMigration` (lines 211-217, minus the
echoed configuration fields that never change during a run). -/
structure MigSummary where
  results : List (String × TableResult)
  totalMigrated : Nat
  dryRun : Bool
deriving Repr, DecidableEq

/-- Full outcome of `executeMigration`: the resolved or rejected value,
the durable database state afterwards, and the events in order. -/
structure MigOut where
  result : Except MigErr MigSummary
  db : Db
  events : List Event

/-- The column-selection predicate of `executeMigration` (lines 181-185,
also lines 249-253 and the analyzer): the first column named `user_id` or
`usuario_id` or ending in `_user_id`. -/
def findUserIdColumn (cols : List String) : Option String :=
  cols.find? (fun col => col = "user_id" || col = "usuario_id" || col.endsWith "_user_id")

/-- Per-table pre-count from `DatabaseAnalyzer.countRecordsByTable`
(part_003 lines 141-176): count of source-id rows, with the per-table
catch turning a failed count into a recorded count of 0. -/
def analyzerCount (cfg : MigCfg) (oracle : Oracle) (db : Db) (t : String) : Nat :=
  if oracle.analyzerCountFails t then 0 else countRefs db t cfg.sourceUserId

/-- Embeds `UserMigrator.migrateTable` (migrate.js lines 97-150) for table
`t` whose selected user-id column is `c` (the column contents are
`db.colOf t` in this model): count the source rows; return
`{migrated: 0, skipped: 0}` when zero; in dry-run mode return the count as
`skipped` without writing; otherwise count target-id conflicts and execute
the UPDATE through `pool.execute` (autocommitted). A statement failure is
rethrown to the caller. -/
def migrateTable (cfg : MigCfg) (oracle : Oracle) (db : Db) (t c : String) :
    Except MigErr (TableResult × Db × List Event) :=
  if oracle.countSourceFails t then Except.error (MigErr.queryFailed t StmtKind.countSource)
  else
    let recordCount := countRefs db t cfg.sourceUserId
    if recordCount = 0 then
      Except.ok ({ migrated := 0, skipped := 0, existingRecords := none }, db, [])
    else if cfg.dryRun then
      Except.ok ({ migrated := 0, skipped := recordCount, existingRecords := none }, db, [])
    else if oracle.conflictCountFails t then Except.error (MigErr.queryFailed t StmtKind.conflictCount)
    else
      let existing := countRefs db t cfg.targetUserId
      if oracle.updateFails t then Except.error (MigErr.queryFailed t StmtKind.update)
      else
        Except.ok
          ({ migrated := updateAffected db t cfg.sourceUserId cfg.targetUserId,
             skipped := 0, existingRecords := some existing },
           db.updateRefs t cfg.sourceUserId cfg.targetUserId,
           [Event.update t cfg.sourceUserId cfg.targetUserId])

/-- The per-table loop of `executeMigration` (lines 180-201): for each
discovered table whose pre-count is positive, run `migrateTable`,
accumulating results and `totalMigrated`; the first failure stops the loop
and is reported, keeping the durable state and events produced so far. -/
def migrateLoop (cfg : MigCfg) (oracle : Oracle) (recordCounts : String → Nat) :
    List (String × List String) → Db →
    Db × List Event × Except MigErr (List (String × TableResult) × Nat)
  | [], db => (db, [], Except.ok ([], 0))
  | (t, cols) :: rest, db =>
    match findUserIdColumn cols with
    | none => migrateLoop cfg oracle recordCounts rest db
    | some c =>
      if recordCounts t > 0 then
        match migrateTable cfg oracle db t c with
        | Except.error e => (db, [], Except.error e)
        | Except.ok (res, db2, evts) =>
          match migrateLoop cfg oracle recordCounts rest db2 with
          | (db3, evts2, Except.error e) => (db3, evts ++ evts2, Except.error e)
          | (db3, evts2, Except.ok (results, total)) =>
            (db3, evts ++ evts2, Except.ok ((t, res) :: results, res.migrated + total))
      else migrateLoop cfg oracle recordCounts rest db

/-- Embeds `UserMigrator.executeMigration` (migrate.js lines 155-235).
`tableMap` is the analyzer's schema-discovery output (table name with its
user-id-like columns, in order). Validation checks both ids exist in
`users`; in execute mode a transaction is begun on the separately acquired
`connection`; each table is migrated via statements issued through
`pool.execute`; on a failure the inner catch (line 195) and the outer
catch (line 223) each roll the statement-free transaction back and the
error is rethrown; on success the transaction is committed only when
`totalMigrated > 0` (line 204). -/
def executeMigration (cfg : MigCfg) (oracle : Oracle) (db : Db)
    (tableMap : List (String × List String)) : MigOut :=
  if ¬ db.usersTable.contains cfg.sourceUserId then
    { result := Except.error (MigErr.sourceUserNotFound cfg.sourceUserId), db := db, events := [] }
  else if ¬ db.usersTable.contains cfg.targetUserId then
    { result := Except.error (MigErr.targetUserNotFound cfg.targetUserId), db := db, events := [] }
  else
    let recordCounts := fun t => analyzerCount cfg oracle db t
    let beginEvts := if cfg.dryRun then [] else [Event.beginTx]
    match migrateLoop cfg oracle recordCounts tableMap db with
    | (db2, evts, Except.error e) =>
      { result := Except.error e
        db := db2
        events := beginEvts ++ evts ++
          (if cfg.dryRun then [] else [Event.rollbackTx, Event.rollbackTx]) }
    | (db2, evts, Except.ok (results, total)) =>
      { result := Except.ok { results := results, totalMigrated := total, dryRun := cfg.dryRun }
        db := db2
        events := beginEvts ++ evts ++
          (if ¬ cfg.dryRun ∧ total > 0 then [Event.commitTx] else []) }

/-! ## UserRemover (src/unnamed/part_001) -/

/-- One binding of config/tables.js: a table and its user-id column. -/
structure TableConfig where
  table : String
  column : String
deriving Repr, DecidableEq

/-- The static binding list `MIGRATION_TABLES` of config/tables.js
(the commented-out entries are not part of the list). -/
def migrationTables : List TableConfig :=
  [{ table := "content", column := "user_id" }, { table := "media", column := "user_id" }]

/-- Response environment for one remover run: what the data store answers
to each statement the remover issues, in program order. This is the most
general backend; `honestRemEnv` instantiates it from a `Db`. User rows are
identified by their id. -/
structure RemEnv where
  countResult : String → Except String Int
  userRows : Except String (List Int)
  deleteAffected : Except String Nat
  verifyCount : Except String Nat

/-- One entry of the `safetyCheck` object built by `verifySafeToRemove`:
the recorded `remainingReferences` is the count on success and `-1` when
the count query failed (part_001 lines 94-101). -/
structure SafetyEntry where
  table : String
  column : String
  remainingReferences : Int
  errorMsg : Option String
deriving Repr, DecidableEq

/-- The value returned by `verifySafeToRemove`. -/
structure SafetyResult where
  isSafe : Bool
  totalReferences : Int
  safetyCheck : List SafetyEntry
deriving Repr, DecidableEq

/-- The per-binding loop of `verifySafeToRemove` (part_001 lines 71-102):
a successful count is recorded and added to `totalReferences`; a failed
count is recorded as `-1` and NOT added to the total. -/
def safetyLoop (env : RemEnv) : List TableConfig → List SafetyEntry × Int
  | [] => ([], 0)
  | tc :: rest =>
    match env.countResult tc.table with
    | Except.ok c =>
      let tail := safetyLoop env rest
      ({ table := tc.table, column := tc.column,
         remainingReferences := c, errorMsg := none } :: tail.1, c + tail.2)
    | Except.error m =>
      let tail := safetyLoop env rest
      ({ table := tc.table, column := tc.column,
         remainingReferences := -1, errorMsg := some m } :: tail.1, tail.2)

/-- Embeds `UserRemover.verifySafeToRemove` (part_001 lines 63-122):
`isSafe` is `totalReferences === 0`. -/
def verifySafeToRemove (tables : List TableConfig) (env : RemEnv) : SafetyResult :=
  let acc := safetyLoop env tables
  { isSafe := acc.2 == 0, totalReferences := acc.2, safetyCheck := acc.1 }

/-- Errors surfaced by the remover: the unsafe-to-remove throw (line 240),
the backup-fetch not-found throw (line 138), the zero-affected-rows delete
throw (line 184), and underlying statement failures. -/
inductive RemErr where
  | notSafeToRemove (total : Int)
  | userNotFoundForBackup (id : Int)
  | queryError (msg : String)
  | noUserDeleted (id : Int)
deriving Repr, DecidableEq

/-- Embeds `UserRemover.createUserBackup` (part_001 lines 127-164): fetch
the user row by id; an empty result throws before any file is written;
otherwise the backup file for the fetched row is durably written
(`fs.writeFileSync`, the `backupWrite` event) before returning. -/
def createUserBackup (cfg : RemCfg) (env : RemEnv) : Except RemErr (Int × List Event) :=
  match env.userRows with
  | Except.error m => Except.error (RemErr.queryError m)
  | Except.ok [] => Except.error (RemErr.userNotFoundForBackup cfg.sourceUserId)
  | Except.ok (u :: _) => Except.ok (u, [Event.backupWrite u])

/-- The value returned by `removeUserRecord` (dry-run: `{removed: false,
simulated: true}`; execute: `{removed: true, affectedRows}`). -/
structure RemovalResult where
  removed : Bool
  simulated : Bool
  affectedRows : Nat
deriving Repr, DecidableEq

/-- Embeds `UserRemover.removeUserRecord` (part_001 lines 169-198): in
dry-run mode nothing is executed; otherwise the DELETE is issued through
`pool.execute` (the event is emitted whenever the statement itself
succeeds, even when it matched zero rows, in which case the code then
throws). -/
def removeUserRecord (cfg : RemCfg) (env : RemEnv) :
    List Event × Except RemErr RemovalResult :=
  if cfg.dryRun then
    ([], Except.ok { removed := false, simulated := true, affectedRows := 0 })
  else
    match env.deleteAffected with
    | Except.error m => ([], Except.error (RemErr.queryError m))
    | Except.ok n =>
      if n = 0 then
        ([Event.deleteUser cfg.sourceUserId], Except.error (RemErr.noUserDeleted cfg.sourceUserId))
      else
        ([Event.deleteUser cfg.sourceUserId],
         Except.ok { removed := true, simulated := false, affectedRows := n })

/-- The value returned by `verifyRemoval` (part_001 lines 203-226). -/
structure VerifyResult where
  success : Bool
  userStillExists : Bool
deriving Repr, DecidableEq

/-- Embeds `UserRemover.verifyRemoval`: a post-delete count of the user
row; a positive count yields `{success: false, userStillExists: true}` —
returned, not thrown. -/
def verifyRemoval (env : RemEnv) : Except RemErr VerifyResult :=
  match env.verifyCount with
  | Except.error m => Except.error (RemErr.queryError m)
  | Except.ok n =>
    if n > 0 then Except.ok { success := false, userStillExists := true }
    else Except.ok { success := true, userStillExists := false }

/-- The value resolved by `UserRemover.run` (part_001 lines 274-280, minus
the log-file name). -/
structure RemRunOk where
  safety : SafetyResult
  backupRowId : Int
  removal : RemovalResult
  verification : VerifyResult
deriving Repr, DecidableEq

/-- Full outcome of `UserRemover.run`: resolved or rejected value plus the
events in order. -/
structure RemOut where
  result : Except RemErr RemRunOk
  events : List Event

/-- The tail of `UserRemover.run` once the backup has been written
(part_001 lines 246-280): begin a transaction on the separately acquired
`connection` (execute mode), delete via `pool.execute`, verify; commit
when verification succeeded, otherwise roll back; errors raised after the
connection was acquired also roll back in the catch (line 286) and reject
the run. A failed verification only rolls the statement-free transaction
back: the run still resolves successfully. -/
def runAfterBackup (cfg : RemCfg) (env : RemEnv) (safety : SafetyResult) (rowId : Int) :
    Except RemErr RemRunOk × List Event :=
  let beginEvts := if cfg.dryRun then [] else [Event.beginTx]
  match removeUserRecord cfg env with
  | (delEvts, Except.error e) =>
    (Except.error e,
     beginEvts ++ delEvts ++ (if cfg.dryRun then [] else [Event.rollbackTx]))
  | (delEvts, Except.ok removal) =>
    match verifyRemoval env with
    | Except.error e =>
      (Except.error e,
       beginEvts ++ delEvts ++ (if cfg.dryRun then [] else [Event.rollbackTx]))
    | Except.ok verification =>
      let finishEvts :=
        if ¬ cfg.dryRun ∧ verification.success then [Event.commitTx]
        else if ¬ cfg.dryRun then [Event.rollbackTx]
        else []
      (Except.ok { safety := safety, backupRowId := rowId,
                   removal := removal, verification := verification },
       beginEvts ++ delEvts ++ finishEvts)

/-- Embeds `UserRemover.run` (part_001 lines 231-300): safety check (throw
before backup when unsafe), then backup (whose durable write precedes
everything in `runAfterBackup`), then the delete/verify/commit tail. -/
def UserRemover.run (cfg : RemCfg) (tables : List TableConfig) (env : RemEnv) : RemOut :=
  let safety := verifySafeToRemove tables env
  if ¬ safety.isSafe then
    { result := Except.error (RemErr.notSafeToRemove safety.totalReferences), events := [] }
  else
    match createUserBackup cfg env with
    | Except.error e => { result := Except.error e, events := [] }
    | Except.ok (rowId, backupEvts) =>
      { result := (runAfterBackup cfg env safety rowId).1
        events := backupEvts ++ (runAfterBackup cfg env safety rowId).2 }

/-- The honest instantiation of `RemEnv` from a durable state `db`:
counts report `db`, the user fetch returns the rows with the source id,
the delete reports the number of matching rows, and the post-delete count
reflects the only write that can precede it (the delete itself), hence 0
in execute mode and the original count in dry-run mode. `countFails t`
optionally injects a transport failure (with its message) into the safety
count for table `t`. -/
def honestRemEnv (cfg : RemCfg) (db : Db) (countFails : String → Option String) : RemEnv where
  countResult t :=
    match countFails t with
    | some m => Except.error m
    | none => Except.ok (countRefs db t cfg.sourceUserId : Nat)
  userRows := Except.ok (db.userTable.filter (fun v => v = cfg.sourceUserId))
  deleteAffected := Except.ok (db.userTable.count cfg.sourceUserId)
  verifyCount := Except.ok (if cfg.dryRun then db.userTable.count cfg.sourceUserId else 0)

/-! ## Helper observations on runs -/

/-- Scan an event list maintaining whether a backup write has occurred;
`true` iff every delete event is preceded by some backup write. -/
def backupSeenBeforeDeletes (seen : Bool) : List Event → Bool
  | [] => true
  | Event.deleteUser _ :: rest => seen && backupSeenBeforeDeletes seen rest
  | Event.backupWrite _ :: rest => backupSeenBeforeDeletes true rest
  | _ :: rest => backupSeenBeforeDeletes seen rest

/-- Every delete statement in the trace is preceded by a durable backup
write. -/
def backupBeforeDelete (evts : List Event) : Bool :=
  backupSeenBeforeDeletes false evts

/-- Whether the trace contains any delete statement. -/
def hasDeleteEvent : List Event → Bool
  | [] => false
  | Event.deleteUser _ :: _ => true
  | _ :: rest => hasDeleteEvent rest

/-- Whether a run resolved (JS promise fulfilled) rather than rejected. -/
def exceptOk {ε α : Type} : Except ε α → Bool
  | Except.ok _ => true
  | Except.error _ => false

/-- The `verification.success` flag of a resolved removal run. -/
def reportedVerificationSuccess : Except RemErr RemRunOk → Bool
  | Except.ok r => r.verification.success
  | Except.error _ => false

/-- Sum of the `remainingReferences` values recorded in a safety check. -/
def recordedRemainingSum (entries : List SafetyEntry) : Int :=
  (entries.map (fun e => e.remainingReferences)).sum

deriving instance DecidableEq for Except

/-! ## Concrete run instances used by counterexamples and witnesses -/

/-- The default configuration (ids 41 and 358) in execute mode. -/
def cfgExec : MigCfg := { sourceUserId := 41, targetUserId := 358, dryRun := false }

/-- Database for the atomicity scenario: both users exist, one source row
in `content` and one in `media`. -/
def dbAtomicity : Db :=
  { usersTable := [41, 358], userTable := [41],
    refs := [("content", [41]), ("media", [41])] }

/-- Discovered schema for the two data tables. -/
def tmTwoTables : List (String × List String) :=
  [("content", ["user_id"]), ("media", ["user_id"])]

/-- Oracle in which only the UPDATE on `media` fails. -/
def oracleMediaUpdateFails : Oracle :=
  { noFailOracle with updateFails := fun t => t == "media" }

/-- Default remover configuration in execute mode. -/
def cfgRemExec : RemCfg := { sourceUserId := 41, dryRun := false }

/-- Remover backend in which the safety count on `content` fails at the
transport level while `media` reports zero remaining references, the user
row exists, and the delete succeeds. -/
def envCountFails : RemEnv :=
  { countResult := fun t => if t = "content" then Except.error "connection lost" else Except.ok 0
    userRows := Except.ok [41]
    deleteAffected := Except.ok 1
    verifyCount := Except.ok 0 }

/-- Remover backend in which everything is clean but the post-delete read
still finds the entity row present. -/
def envStillPresent : RemEnv :=
  { countResult := fun _ => Except.ok 0
    userRows := Except.ok [41]
    deleteAffected := Except.ok 1
    verifyCount := Except.ok 1 }

/-- Remover backend reporting five remaining references in each binding. -/
def envUnsafe : RemEnv :=
  { countResult := fun _ => Except.ok 5
    userRows := Except.ok [41]
    deleteAffected := Except.ok 1
    verifyCount := Except.ok 0 }

/-- Identical-id configuration (sourceId = targetId = 41). -/
def cfgSameIds : MigCfg := { sourceUserId := 41, targetUserId := 41, dryRun := false }

/-- Database for the identical-id scenario: user 41 exists and `content`
has one row bound to 41. -/
def dbSameIds : Db :=
  { usersTable := [41], userTable := [], refs := [("content", [41])] }

/-- Discovered schema with the single data table `content`. -/
def tmContent : List (String × List String) := [("content", ["user_id"])]

/-- Database in which every binding has zero source rows. -/
def dbZeroRows : Db :=
  { usersTable := [41, 358], userTable := [], refs := [("content", [])] }

/-! ## Claim theorems -/

/-- C1: the claim of run atomicity fails on the code.  In the Execute-mode
run over `dbAtomicity` where the rewrite of `media` fails after the
rewrite of `content` succeeded, the error propagates and a rollback is
issued on the held connection, but the reference count of `content` for
the source id is 0 after the failed run while it was 1 before: the earlier
rewrite persists, because every UPDATE was issued through `pool.execute`
(autocommitted on other pool connections) and the transaction begun on
`connection` contains no statements. -/
theorem migration_atomicity_fails_on_partial_failure :
    (executeMigration cfgExec oracleMediaUpdateFails dbAtomicity tmTwoTables).result =
      Except.error (MigErr.queryFailed "media" StmtKind.update)
    ∧ Event.rollbackTx ∈ (executeMigration cfgExec oracleMediaUpdateFails dbAtomicity tmTwoTables).events
    ∧ countRefs dbAtomicity "content" 41 = 1
    ∧ countRefs (executeMigration cfgExec oracleMediaUpdateFails dbAtomicity tmTwoTables).db "content" 41 = 0 := by
  decide

/-- C3: the safety-check aggregate ignores failed counts.  With the count
on `content` failing at the transport level and `media` reporting zero,
`verifySafeToRemove` records `remainingReferences = -1` for `content` but
leaves `totalReferences` at 0, judges removal safe, and the run proceeds
to execute the DELETE — the recorded per-binding sum is -1, not the
aggregate 0, and the failed count is effectively treated as zero remaining
references. -/
theorem safety_check_treats_failed_count_as_zero :
    (verifySafeToRemove migrationTables envCountFails).isSafe = true
    ∧ (verifySafeToRemove migrationTables envCountFails).totalReferences = 0
    ∧ recordedRemainingSum (verifySafeToRemove migrationTables envCountFails).safetyCheck = -1
    ∧ hasDeleteEvent (UserRemover.run cfgRemExec migrationTables envCountFails).events = true := by
  decide

/-- C4: a failed post-delete absence check does not fail the run.  In the
Execute-mode removal run over `envStillPresent`, the post-delete read
finds the entity still present; the code rolls the (statement-free)
transaction back but the run still resolves successfully with
`verification.success = false` — no error is surfaced to the caller. -/
theorem confirm_absence_failure_resolves_successfully :
    exceptOk (UserRemover.run cfgRemExec migrationTables envStillPresent).result = true
    ∧ reportedVerificationSuccess (UserRemover.run cfgRemExec migrationTables envStillPresent).result = false
    ∧ Event.rollbackTx ∈ (UserRemover.run cfgRemExec migrationTables envStillPresent).events := by
  decide

/-- C5 counterexample: identical source and target ids are not rejected.
With `sourceId = targetId = 41`, the run raises no error of any kind and
executes the rewrite statement against the data store — refuting the claim
that a ConfigurationError is raised and no operation is attempted. -/
theorem identical_ids_not_rejected :
    exceptOk (executeMigration cfgSameIds noFailOracle dbSameIds tmContent).result = true
    ∧ Event.update "content" 41 41 ∈ (executeMigration cfgSameIds noFailOracle dbSameIds tmContent).events := by
  decide

/-- C8 counterexample: a successful Execute-mode run in which every
binding has zero source rows opens the transaction but never commits it:
the run resolves with `totalMigrated = 0` and the event trace is
`[beginTx]` with no commit — refuting the claim that the opened
transaction is committed in every all-rewrites-succeed run. -/
theorem zero_row_run_never_commits :
    (executeMigration cfgExec noFailOracle dbZeroRows tmContent).result =
      Except.ok { results := [], totalMigrated := 0, dryRun := false }
    ∧ (executeMigration cfgExec noFailOracle dbZeroRows tmContent).events = [Event.beginTx]
    ∧ Event.commitTx ∉ (executeMigration cfgExec noFailOracle dbZeroRows tmContent).events := by
  decide

/-- C2: fail-closed removal gate.  Whenever the aggregate
`totalReferences` computed by the safety check is nonzero, the run rejects
with the unsafe-to-remove error carrying that aggregate, produces no event
at all (no backup write, no transaction, no delete statement), and hence
leaves every durable state unchanged — the source entity row still
exists. -/
theorem unsafe_total_aborts_before_backup_and_delete
    (cfg : RemCfg) (tables : List TableConfig) (env : RemEnv)
    (h : (verifySafeToRemove tables env).totalReferences ≠ 0) :
    (UserRemover.run cfg tables env).result =
      Except.error (RemErr.notSafeToRemove (verifySafeToRemove tables env).totalReferences)
    ∧ (UserRemover.run cfg tables env).events = []
    ∧ ∀ db : Db, applyEvents db (UserRemover.run cfg tables env).events = db := by
  have hsafe : (verifySafeToRemove tables env).isSafe = false := by
    simp only [verifySafeToRemove] at h ⊢
    exact beq_eq_false_iff_ne.mpr h
  refine ⟨?_, ?_, ?_⟩ <;> simp [UserRemover.run, hsafe, applyEvents]

/-- Witness for C2: with every binding reporting five remaining
references, the aggregate is nonzero and the run aborts eventlessly. -/
theorem unsafe_total_aborts_witness :
    (verifySafeToRemove migrationTables envUnsafe).totalReferences ≠ 0
    ∧ (UserRemover.run cfgRemExec migrationTables envUnsafe).result =
        Except.error (RemErr.notSafeToRemove (verifySafeToRemove migrationTables envUnsafe).totalReferences)
    ∧ (UserRemover.run cfgRemExec migrationTables envUnsafe).events = [] :=
  ⟨by decide,
   (unsafe_total_aborts_before_backup_and_delete cfgRemExec migrationTables envUnsafe (by decide)).1,
   (unsafe_total_aborts_before_backup_and_delete cfgRemExec migrationTables envUnsafe (by decide)).2.1⟩

/-- C9: the run executes in Simulate (dry-run) mode iff the DRY_RUN
environment string is exactly `true`; in particular `TRUE`, `1`, `yes`
and an unset variable all select Execute mode, for both the migrator and
the remover constructors. -/
theorem dry_run_flag_strict_equality :
    (∀ env : Env, ((mkMigCfg env).dryRun = true ↔ env.dryRunVar = some "true"))
    ∧ (∀ env : Env, ((mkRemCfg env).dryRun = true ↔ env.dryRunVar = some "true"))
    ∧ (mkMigCfg (Env.mk none none (some "TRUE"))).dryRun = false
    ∧ (mkMigCfg (Env.mk none none (some "1"))).dryRun = false
    ∧ (mkMigCfg (Env.mk none none (some "yes"))).dryRun = false
    ∧ (mkMigCfg (Env.mk none none none)).dryRun = false := by
  refine ⟨?_, ?_, by decide, by decide, by decide, by decide⟩ <;>
    intro env <;> simp [mkMigCfg, mkRemCfg, parseDryRun]

/-- An unset variable, a NaN parse, or a parse to 0 all make
`parseInt(envVar) || dflt` yield the default. -/
lemma parseEnvInt_default (s : Option String) (d : Int)
    (h : s = none ∨ s.bind jsParseInt = none ∨ s.bind jsParseInt = some 0) :
    parseEnvInt s d = d := by
  rcases s with _ | str
  · rfl
  · rcases h with h | h | h
    · exact absurd h (by simp)
    · simp only [Option.some_bind] at h
      simp [parseEnvInt, h]
    · simp only [Option.some_bind] at h
      simp [parseEnvInt, h]

/-- C10: identifier defaulting.  Whenever SOURCE_USER_ID (respectively
TARGET_USER_ID) is unset, non-numeric (`parseInt` yields NaN) or parses to
0, both constructors silently substitute the built-in defaults: source id
41 and target id 358. -/
theorem missing_or_invalid_ids_default (env : Env) :
    ((env.sourceUserIdVar = none ∨ env.sourceUserIdVar.bind jsParseInt = none ∨
        env.sourceUserIdVar.bind jsParseInt = some 0) →
      (mkMigCfg env).sourceUserId = 41 ∧ (mkRemCfg env).sourceUserId = 41)
    ∧ ((env.targetUserIdVar = none ∨ env.targetUserIdVar.bind jsParseInt = none ∨
        env.targetUserIdVar.bind jsParseInt = some 0) →
      (mkMigCfg env).targetUserId = 358) := by
  refine ⟨fun h => ⟨?_, ?_⟩, fun h => ?_⟩
  · exact parseEnvInt_default env.sourceUserIdVar 41 h
  · exact parseEnvInt_default env.sourceUserIdVar 41 h
  · exact parseEnvInt_default env.targetUserIdVar 358 h

/-- Environment with a non-numeric source id and a zero target id. -/
def envBadIds : Env :=
  { sourceUserIdVar := some "abc", targetUserIdVar := some "0", dryRunVar := none }

/-- Witness for C10: with SOURCE_USER_ID set to `abc` (NaN) and
TARGET_USER_ID set to `0`, both constructors fall back to ids 41/358. -/
theorem missing_or_invalid_ids_default_witness :
    (envBadIds.sourceUserIdVar = none ∨ envBadIds.sourceUserIdVar.bind jsParseInt = none ∨
      envBadIds.sourceUserIdVar.bind jsParseInt = some 0)
    ∧ (mkMigCfg envBadIds).sourceUserId = 41 ∧ (mkRemCfg envBadIds).sourceUserId = 41
    ∧ (mkMigCfg envBadIds).targetUserId = 358 :=
  ⟨by decide,
   ((missing_or_invalid_ids_default envBadIds).1 (by decide)).1,
   ((missing_or_invalid_ids_default envBadIds).1 (by decide)).2,
   (missing_or_invalid_ids_default envBadIds).2 (by decide)⟩

/-- Once a backup write has been seen, the scan accepts any suffix. -/
lemma backupSeenBeforeDeletes_true (evts : List Event) :
    backupSeenBeforeDeletes true evts = true := by
  induction evts with
  | nil => rfl
  | cons e rest ih => cases e <;> simp [backupSeenBeforeDeletes, ih]

/-- The post-backup tail of a removal run never writes another backup. -/
lemma runAfterBackup_no_backupWrite (cfg : RemCfg) (env : RemEnv)
    (safety : SafetyResult) (rowId : Int) (u : Int) :
    Event.backupWrite u ∉ (runAfterBackup cfg env safety rowId).2 := by
  unfold runAfterBackup removeUserRecord verifyRemoval
  by_cases hd : cfg.dryRun
  · rcases hvc : env.verifyCount with m | k <;> simp [hd, hvc] <;> split_ifs <;> simp
  · rcases hdel : env.deleteAffected with m | n
    · simp [hd, hdel]
    · rcases hvc : env.verifyCount with m | k <;>
        simp [hd, hdel, hvc] <;> split_ifs <;> simp

/-- C6: backup-before-delete ordering.  In every removal run: every delete
statement in the trace is preceded by a durable backup write; every backup
write is of exactly the first row returned by the user fetch (the exact
entity row); and when the fetch finds no row while the safety check had
passed, the not-found error is surfaced and no delete statement is ever
executed. -/
theorem backup_precedes_delete (cfg : RemCfg) (tables : List TableConfig) (env : RemEnv) :
    backupBeforeDelete (UserRemover.run cfg tables env).events = true
    ∧ (∀ rows u, env.userRows = Except.ok rows →
        Event.backupWrite u ∈ (UserRemover.run cfg tables env).events →
        rows.head? = some u)
    ∧ ((verifySafeToRemove tables env).isSafe = true → env.userRows = Except.ok [] →
        (UserRemover.run cfg tables env).result =
          Except.error (RemErr.userNotFoundForBackup cfg.sourceUserId)
        ∧ hasDeleteEvent (UserRemover.run cfg tables env).events = false) := by
  by_cases hsafe : (verifySafeToRemove tables env).isSafe
  · rcases hrows : env.userRows with m | rows
    · refine ⟨?_, ?_, ?_⟩ <;>
        simp [UserRemover.run, hsafe, createUserBackup, hrows, backupBeforeDelete,
          backupSeenBeforeDeletes, hasDeleteEvent]
    · cases rows with
      | nil =>
        refine ⟨?_, ?_, ?_⟩ <;>
          simp [UserRemover.run, hsafe, createUserBackup, hrows, backupBeforeDelete,
            backupSeenBeforeDeletes, hasDeleteEvent]
      | cons u us =>
        have hrun : UserRemover.run cfg tables env =
            { result := (runAfterBackup cfg env (verifySafeToRemove tables env) u).1
              events := Event.backupWrite u ::
                (runAfterBackup cfg env (verifySafeToRemove tables env) u).2 } := by
          simp [UserRemover.run, hsafe, createUserBackup, hrows]
        refine ⟨?_, ?_, ?_⟩
        · rw [hrun]
          simp [backupBeforeDelete, backupSeenBeforeDeletes, backupSeenBeforeDeletes_true]
        · intro rows0 u0 h0 hmem
          have hr0 : u :: us = rows0 := by simpa using h0
          rw [hrun] at hmem
          simp at hmem
          rcases hmem with hmem | hmem
          · simp [← hr0, hmem]
          · exact absurd hmem (runAfterBackup_no_backupWrite cfg env _ u u0)
        · intro _ h0
          simp at h0
  · refine ⟨?_, ?_, ?_⟩ <;>
      simp [UserRemover.run, hsafe, backupBeforeDelete, backupSeenBeforeDeletes,
        hasDeleteEvent]

/-- Remover backend in which the user row does not exist. -/
def envNoUser : RemEnv :=
  { countResult := fun _ => Except.ok 0
    userRows := Except.ok []
    deleteAffected := Except.ok 0
    verifyCount := Except.ok 0 }

/-- Witness for C6: with a clean safety check but no user row, the fetch
for backup fails, the not-found error is surfaced and no delete happens;
the ordering scan accepts the (empty) trace. -/
theorem backup_precedes_delete_witness :
    (verifySafeToRemove migrationTables envNoUser).isSafe = true
    ∧ backupBeforeDelete (UserRemover.run cfgRemExec migrationTables envNoUser).events = true
    ∧ (UserRemover.run cfgRemExec migrationTables envNoUser).result =
        Except.error (RemErr.userNotFoundForBackup 41)
    ∧ hasDeleteEvent (UserRemover.run cfgRemExec migrationTables envNoUser).events = false :=
  ⟨by decide,
   (backup_precedes_delete cfgRemExec migrationTables envNoUser).1,
   ((backup_precedes_delete cfgRemExec migrationTables envNoUser).2.2 (by decide) rfl).1,
   ((backup_precedes_delete cfgRemExec migrationTables envNoUser).2.2 (by decide) rfl).2⟩

/-- The per-table result of a dry-run pass that found `n` source rows. -/
def dryResult (n : Nat) : TableResult :=
  { migrated := 0, skipped := n, existingRecords := none }

/-- In dry-run mode `migrateTable` either rethrows a failed count or
returns the current source count as `skipped` with the database and the
event trace untouched. -/
lemma migrateTable_dryRun (cfg : MigCfg) (oracle : Oracle) (db : Db) (t c : String)
    (h : cfg.dryRun = true) :
    migrateTable cfg oracle db t c = Except.error (MigErr.queryFailed t StmtKind.countSource)
    ∨ migrateTable cfg oracle db t c =
        Except.ok (dryResult (countRefs db t cfg.sourceUserId), db, []) := by
  unfold migrateTable
  by_cases h1 : oracle.countSourceFails t
  · simp [h1]
  · by_cases h2 : countRefs db t cfg.sourceUserId = 0
    · right
      simp [h1, h2, dryResult]
    · right
      simp [h1, h2, h, dryResult]

/-- In dry-run mode the per-table loop leaves the database untouched,
produces no event, and every recorded result has `migrated = 0` with
`skipped` equal to the pre-run source count; `totalMigrated` is 0. -/
lemma migrateLoop_dryRun (cfg : MigCfg) (oracle : Oracle) (rc : String → Nat)
    (h : cfg.dryRun = true) (entries : List (String × List String)) :
    ∀ db : Db,
      (migrateLoop cfg oracle rc entries db).1 = db
      ∧ (migrateLoop cfg oracle rc entries db).2.1 = []
      ∧ ∀ results total,
          (migrateLoop cfg oracle rc entries db).2.2 = Except.ok (results, total) →
          total = 0 ∧
          ∀ p ∈ results, p.2.migrated = 0 ∧ p.2.skipped = countRefs db p.1 cfg.sourceUserId := by
  induction entries with
  | nil =>
    intro db
    simp [migrateLoop]
  | cons entry rest ih =>
    intro db
    obtain ⟨t, cols⟩ := entry
    cases hcol : findUserIdColumn cols with
    | none =>
      have hstep : migrateLoop cfg oracle rc ((t, cols) :: rest) db =
          migrateLoop cfg oracle rc rest db := by
        simp [migrateLoop, hcol]
      rw [hstep]
      exact ih db
    | some c =>
      by_cases hrc : rc t > 0
      · rcases migrateTable_dryRun cfg oracle db t c h with he | hok
        · have hstep : migrateLoop cfg oracle rc ((t, cols) :: rest) db =
              (db, [], Except.error (MigErr.queryFailed t StmtKind.countSource)) := by
            simp [migrateLoop, hcol, hrc, he]
          rw [hstep]
          refine ⟨rfl, rfl, ?_⟩
          intro results0 total0 heq
          simp at heq
        · rcases hrest : migrateLoop cfg oracle rc rest db with ⟨db3, evts2, r⟩
          obtain ⟨ihdb, ihevts, ihok⟩ := ih db
          rw [hrest] at ihdb ihevts ihok
          simp only at ihdb ihevts ihok
          cases r with
          | error e =>
            have hstep : migrateLoop cfg oracle rc ((t, cols) :: rest) db =
                (db, [], Except.error e) := by
              simp [migrateLoop, hcol, hrc, hok, hrest, ihdb, ihevts]
            rw [hstep]
            refine ⟨rfl, rfl, ?_⟩
            intro results0 total0 heq
            simp at heq
          | ok pr =>
            obtain ⟨results, total⟩ := pr
            obtain ⟨htot, hres⟩ := ihok results total rfl
            have hstep : migrateLoop cfg oracle rc ((t, cols) :: rest) db =
                (db, [],
                 Except.ok ((t, dryResult (countRefs db t cfg.sourceUserId)) :: results,
                   total)) := by
              simp [migrateLoop, hcol, hrc, hok, hrest, ihdb, ihevts, dryResult]
            rw [hstep]
            refine ⟨rfl, rfl, ?_⟩
            intro results0 total0 heq
            simp only at heq
            obtain ⟨h1, h2⟩ :
                (t, dryResult (countRefs db t cfg.sourceUserId)) :: results = results0
                ∧ total = total0 := by
              simpa using heq
            constructor
            · rw [← h2]
              exact htot
            · intro p hp
              rw [← h1] at hp
              rcases List.mem_cons.mp hp with hp | hp
              · rw [hp]
                exact ⟨rfl, rfl⟩
              · exact hres p hp
      · have hstep : migrateLoop cfg oracle rc ((t, cols) :: rest) db =
            migrateLoop cfg oracle rc rest db := by
          simp [migrateLoop, hcol, hrc]
        rw [hstep]
        exact ih db

/-- C7: Simulate mode is a pure read.  In every dry-run migration run the
durable database is unchanged (hence every binding's reference count is
unchanged), no event occurs at all (no write statement, no transaction),
and when the run resolves, `totalMigrated` is 0 and every per-table result
reports `migratedCount = 0` with the pre-migration source count as
`skippedCount`. -/
theorem simulate_mode_pure_read (cfg : MigCfg) (oracle : Oracle) (db : Db)
    (tableMap : List (String × List String)) (h : cfg.dryRun = true) :
    (executeMigration cfg oracle db tableMap).db = db
    ∧ (executeMigration cfg oracle db tableMap).events = []
    ∧ (∀ t uid, countRefs (executeMigration cfg oracle db tableMap).db t uid =
        countRefs db t uid)
    ∧ ∀ s, (executeMigration cfg oracle db tableMap).result = Except.ok s →
        s.totalMigrated = 0 ∧
        ∀ p ∈ s.results, p.2.migrated = 0 ∧ p.2.skipped = countRefs db p.1 cfg.sourceUserId := by
  by_cases hsrc : cfg.sourceUserId ∈ db.usersTable
  · by_cases htgt : cfg.targetUserId ∈ db.usersTable
    · rcases hloop : migrateLoop cfg oracle (fun t => analyzerCount cfg oracle db t)
        tableMap db with ⟨db2, evts, r⟩
      obtain ⟨ihdb, ihevts, ihok⟩ :=
        migrateLoop_dryRun cfg oracle (fun t => analyzerCount cfg oracle db t) h tableMap db
      rw [hloop] at ihdb ihevts ihok
      simp only at ihdb ihevts ihok
      cases r with
      | error e =>
        have hexec : executeMigration cfg oracle db tableMap =
            { result := Except.error e, db := db, events := [] } := by
          unfold executeMigration
          simp [hsrc, htgt, hloop, h, ihdb, ihevts]
        rw [hexec]
        refine ⟨rfl, rfl, fun t uid => rfl, ?_⟩
        intro s hs
        simp at hs
      | ok pr =>
        obtain ⟨results, total⟩ := pr
        obtain ⟨htot, hres⟩ := ihok results total rfl
        have hexec : executeMigration cfg oracle db tableMap =
            { result := Except.ok (MigSummary.mk results total cfg.dryRun),
              db := db, events := [] } := by
          unfold executeMigration
          simp [hsrc, htgt, hloop, h, ihdb, ihevts]
        rw [hexec]
        refine ⟨rfl, rfl, fun t uid => rfl, ?_⟩
        intro s hs
        have hs2 : MigSummary.mk results total cfg.dryRun = s := by
          simpa using hs
        rw [← hs2]
        exact ⟨htot, hres⟩
    · have hexec : executeMigration cfg oracle db tableMap =
          { result := Except.error (MigErr.targetUserNotFound cfg.targetUserId),
            db := db, events := [] } := by
        unfold executeMigration
        simp [hsrc, htgt]
      rw [hexec]
      refine ⟨rfl, rfl, fun t uid => rfl, ?_⟩
      intro s hs
      simp at hs
  · have hexec : executeMigration cfg oracle db tableMap =
        { result := Except.error (MigErr.sourceUserNotFound cfg.sourceUserId),
          db := db, events := [] } := by
      unfold executeMigration
      simp [hsrc]
    rw [hexec]
    refine ⟨rfl, rfl, fun t uid => rfl, ?_⟩
    intro s hs
    simp at hs

/-- Dry-run configuration with the default ids. -/
def cfgDry : MigCfg := { sourceUserId := 41, targetUserId := 358, dryRun := true }

/-- Witness for C7: the dry run over `dbAtomicity` leaves the database and
the counts unchanged, produces no event and reports 3 = 0 migrated rows. -/
theorem simulate_mode_pure_read_witness :
    cfgDry.dryRun = true
    ∧ (executeMigration cfgDry noFailOracle dbAtomicity tmTwoTables).db = dbAtomicity
    ∧ (executeMigration cfgDry noFailOracle dbAtomicity tmTwoTables).events = [] :=
  ⟨rfl,
   (simulate_mode_pure_read cfgDry noFailOracle dbAtomicity tmTwoTables rfl).1,
   (simulate_mode_pure_read cfgDry noFailOracle dbAtomicity tmTwoTables rfl).2.1⟩

/-- Rewriting a value to itself is the identity on a column. -/
lemma map_rewrite_self (s : Int) (l : List Int) :
    l.map (fun v => if v = s then s else v) = l := by
  induction l with
  | nil => rfl
  | cons a l ih => by_cases ha : a = s <;> simp [ha, ih]

/-- `UPDATE t SET col = s WHERE col = s` leaves the database unchanged. -/
lemma updateRefs_self (db : Db) (t : String) (s : Int) : db.updateRefs t s s = db := by
  have hmap : ∀ rl : List (String × List Int),
      rl.map (fun p =>
        if p.1 = t then (p.1, p.2.map (fun v => if v = s then s else v)) else p) = rl := by
    intro rl
    induction rl with
    | nil => rfl
    | cons p rl ih => by_cases hp : p.1 = t <;> simp [hp, ih, map_rewrite_self]
  unfold Db.updateRefs
  rw [hmap]

/-- With no statement failures `migrateTable` always succeeds, emits at
most its own update event, and is the identity on the database when the
source and target ids coincide. -/
lemma migrateTable_noFail (cfg : MigCfg) (db : Db) (t c : String) :
    ∃ res db2 evts, migrateTable cfg noFailOracle db t c = Except.ok (res, db2, evts)
      ∧ (evts = [] ∨ evts = [Event.update t cfg.sourceUserId cfg.targetUserId])
      ∧ (cfg.sourceUserId = cfg.targetUserId → db2 = db) := by
  by_cases h2 : countRefs db t cfg.sourceUserId = 0
  · refine ⟨dryResult 0, db, [], ?_, Or.inl rfl, fun _ => rfl⟩
    unfold migrateTable
    simp [noFailOracle, h2, dryResult]
  · by_cases h3 : cfg.dryRun = true
    · refine ⟨dryResult (countRefs db t cfg.sourceUserId), db, [], ?_, Or.inl rfl, fun _ => rfl⟩
      unfold migrateTable
      simp [noFailOracle, h2, h3, dryResult]
    · refine ⟨⟨updateAffected db t cfg.sourceUserId cfg.targetUserId, 0,
        some (countRefs db t cfg.targetUserId)⟩,
        db.updateRefs t cfg.sourceUserId cfg.targetUserId,
        [Event.update t cfg.sourceUserId cfg.targetUserId], ?_, Or.inr rfl, fun hs => ?_⟩
      · unfold migrateTable
        simp [noFailOracle, h2, h3]
      · rw [hs]
        exact updateRefs_self db t cfg.targetUserId

/-- With no statement failures the per-table loop always resolves, its
events are update statements only, and it is the identity on the database
when the source and target ids coincide. -/
lemma migrateLoop_noFail (cfg : MigCfg) (rc : String → Nat)
    (entries : List (String × List String)) :
    ∀ db : Db,
      (∃ results total,
        (migrateLoop cfg noFailOracle rc entries db).2.2 = Except.ok (results, total))
      ∧ (∀ e ∈ (migrateLoop cfg noFailOracle rc entries db).2.1, ∃ t a b, e = Event.update t a b)
      ∧ (cfg.sourceUserId = cfg.targetUserId →
          (migrateLoop cfg noFailOracle rc entries db).1 = db) := by
  induction entries with
  | nil =>
    intro db
    exact ⟨⟨[], 0, rfl⟩, by simp [migrateLoop], fun _ => rfl⟩
  | cons entry rest ih =>
    intro db
    obtain ⟨t, cols⟩ := entry
    cases hcol : findUserIdColumn cols with
    | none =>
      have hstep : migrateLoop cfg noFailOracle rc ((t, cols) :: rest) db =
          migrateLoop cfg noFailOracle rc rest db := by
        simp [migrateLoop, hcol]
      rw [hstep]
      exact ih db
    | some c =>
      by_cases hrc : rc t > 0
      · obtain ⟨res, db2, evts, hok, hevts, hdb2⟩ := migrateTable_noFail cfg db t c
        rcases hrest : migrateLoop cfg noFailOracle rc rest db2 with ⟨db3, evts2, r⟩
        obtain ⟨⟨results, total, hr⟩, ihevts, ihdb⟩ := ih db2
        rw [hrest] at hr ihevts ihdb
        simp only at hr ihevts ihdb
        subst hr
        have hstep : migrateLoop cfg noFailOracle rc ((t, cols) :: rest) db =
            (db3, evts ++ evts2, Except.ok ((t, res) :: results, res.migrated + total)) := by
          simp [migrateLoop, hcol, hrc, hok, hrest]
        rw [hstep]
        refine ⟨⟨(t, res) :: results, res.migrated + total, rfl⟩, ?_, fun hs => ?_⟩
        · intro e he
          rcases List.mem_append.mp he with he | he
          · rcases hevts with hevts | hevts
            · rw [hevts] at he
              simp at he
            · rw [hevts] at he
              simp at he
              exact ⟨t, cfg.sourceUserId, cfg.targetUserId, he⟩
          · exact ihevts e he
        · rw [ihdb hs, hdb2 hs]
      · have hstep : migrateLoop cfg noFailOracle rc ((t, cols) :: rest) db =
            migrateLoop cfg noFailOracle rc rest db := by
          simp [migrateLoop, hcol, hrc]
        rw [hstep]
        exact ih db

/-- C8 (amended): in every Execute-mode run in which every statement
succeeds, the run resolves without error and opens a transaction, but the
transaction is committed if and only if `totalMigrated` is positive — in
particular a run in which every binding had zero source rows leaves the
opened transaction neither committed nor rolled back. -/
theorem execute_success_commit_iff_migrated (cfg : MigCfg) (db : Db)
    (tableMap : List (String × List String)) (h : cfg.dryRun = false)
    (hsrc : cfg.sourceUserId ∈ db.usersTable) (htgt : cfg.targetUserId ∈ db.usersTable) :
    ∃ s, (executeMigration cfg noFailOracle db tableMap).result = Except.ok s
      ∧ Event.beginTx ∈ (executeMigration cfg noFailOracle db tableMap).events
      ∧ (Event.commitTx ∈ (executeMigration cfg noFailOracle db tableMap).events
          ↔ 0 < s.totalMigrated)
      ∧ Event.rollbackTx ∉ (executeMigration cfg noFailOracle db tableMap).events := by
  rcases hloop : migrateLoop cfg noFailOracle
      (fun t => analyzerCount cfg noFailOracle db t) tableMap db with ⟨db2, evts, r⟩
  obtain ⟨⟨results, total, hr⟩, hevts, _⟩ :=
    migrateLoop_noFail cfg (fun t => analyzerCount cfg noFailOracle db t) tableMap db
  rw [hloop] at hr hevts
  simp only at hr hevts
  subst hr
  have hcommit : Event.commitTx ∉ evts := by
    intro hmem
    obtain ⟨t0, a0, b0, he⟩ := hevts Event.commitTx hmem
    exact Event.noConfusion he
  have hrollback : Event.rollbackTx ∉ evts := by
    intro hmem
    obtain ⟨t0, a0, b0, he⟩ := hevts Event.rollbackTx hmem
    exact Event.noConfusion he
  by_cases htot : 0 < total
  · refine ⟨MigSummary.mk results total cfg.dryRun, ?_, ?_, ?_, ?_⟩ <;>
      simp [executeMigration, hsrc, htgt, hloop, h, htot, hcommit, hrollback]
  · refine ⟨MigSummary.mk results total cfg.dryRun, ?_, ?_, ?_, ?_⟩ <;>
      simp [executeMigration, hsrc, htgt, hloop, h, htot, hcommit, hrollback]

/-- Witness for C8 (amended): over `dbAtomicity` every rewrite succeeds,
two rows are migrated and the transaction is committed. -/
theorem execute_success_commit_iff_migrated_witness :
    cfgExec.dryRun = false
    ∧ ∃ s, (executeMigration cfgExec noFailOracle dbAtomicity tmTwoTables).result = Except.ok s
      ∧ Event.beginTx ∈ (executeMigration cfgExec noFailOracle dbAtomicity tmTwoTables).events
      ∧ (Event.commitTx ∈ (executeMigration cfgExec noFailOracle dbAtomicity tmTwoTables).events
          ↔ 0 < s.totalMigrated)
      ∧ Event.rollbackTx ∉ (executeMigration cfgExec noFailOracle dbAtomicity tmTwoTables).events :=
  ⟨rfl, execute_success_commit_iff_migrated cfgExec dbAtomicity tmTwoTables rfl
    (by decide) (by decide)⟩

/-- C5 (amended): no identical-id check exists.  In every run configured
with `sourceId = targetId` (and both present in `users`), the migration is
attempted and resolves without any error, and the rewrite is a no-op: the
durable database is unchanged. -/
theorem identical_ids_run_attempted_noop (cfg : MigCfg) (db : Db)
    (tableMap : List (String × List String)) (h : cfg.sourceUserId = cfg.targetUserId)
    (hsrc : cfg.sourceUserId ∈ db.usersTable) :
    exceptOk (executeMigration cfg noFailOracle db tableMap).result = true
    ∧ (executeMigration cfg noFailOracle db tableMap).db = db := by
  have htgt : cfg.targetUserId ∈ db.usersTable := by
    rw [← h]
    exact hsrc
  rcases hloop : migrateLoop cfg noFailOracle
      (fun t => analyzerCount cfg noFailOracle db t) tableMap db with ⟨db2, evts, r⟩
  obtain ⟨⟨results, total, hr⟩, _, hdb⟩ :=
    migrateLoop_noFail cfg (fun t => analyzerCount cfg noFailOracle db t) tableMap db
  rw [hloop] at hr hdb
  simp only at hr hdb
  subst hr
  have hdb2 : db2 = db := hdb h
  constructor <;> simp [executeMigration, hsrc, htgt, hloop, hdb2, exceptOk]

/-- Witness for C5 (amended): the concrete identical-id run resolves and
leaves the database unchanged. -/
theorem identical_ids_run_attempted_noop_witness :
    cfgSameIds.sourceUserId = cfgSameIds.targetUserId
    ∧ exceptOk (executeMigration cfgSameIds noFailOracle dbSameIds tmContent).result = true
    ∧ (executeMigration cfgSameIds noFailOracle dbSameIds tmContent).db = dbSameIds :=
  ⟨rfl,
   (identical_ids_run_attempted_noop cfgSameIds dbSameIds tmContent rfl (by decide)).1,
   (identical_ids_run_attempted_noop cfgSameIds dbSameIds tmContent rfl (by decide)).2⟩

end UserMigration
